import Mathlib

/-!
Verification development for the MongoDB-to-Firestore replication script
(`index.js`). The script's data and behaviour are shallowly embedded:

* `BVal` models the BSON/JS values the script manipulates (scalars,
  ObjectIds and nested documents).
* `convertIdToString` mirrors the recursive `_id`-stringification helper.
* `applyChange` mirrors the body of the change-stream `change` handler in
  `startLiveReplication` (insert → `ref.set`, update → `ref.update`,
  delete → `ref.delete`), with a thrown JS exception modelled as
  `Except.error`.
* `onChange` / `runLive` mirror the counter-based resume-token batching of
  the handler under a serialized schedule (each handler invocation runs to
  completion before the next event is handled).
* `execStep` / `execSched` give the interleaved event-loop semantics of
  the same handler: the emitter dispatches `change` events in feed order
  but never awaits the async listener, so the awaited writes and token
  saves of successive events may overlap; an explicit schedule picks which
  pending await completes next. `serialSched` recovers the fold.
* `loadResumeToken` / `saveResumeToken` mirror the resume-token file
  helpers over an explicit file-system map.
* `migrateCollection` / `processDatabase` / `startProcess` / `modeOf`
  mirror the one-shot migration loop, the per-mapping orchestration and
  the mode handling of the entry point.

Firestore state is a key-indexed partial map; `fsSet` is `ref.set`
(full-document replace), `fsUpdate` is `ref.update` (top-level field merge,
failing on an absent document), `fsDelete` is `ref.delete`.
-/

/-- Modelled subset of BSON/JS values appearing in documents: null,
booleans, integers, strings, ObjectId-like reference values (carrying
their string form) and nested documents as ordered field lists. -/
inductive BVal where
  | vNull
  | vBool (b : Bool)
  | vInt (n : Int)
  | vStr (s : String)
  | vObjId (hex : String)
  | vDoc (fields : List (String × BVal))

/-- JS `x.toString()` on a `BVal`. `none` models the `TypeError` thrown by
`null.toString()`; an ObjectId stringifies to its hex form, a nested
document to `"[object Object]"`. -/
def jsToString : BVal → Option String
  | .vNull => none
  | .vBool b => some (if b then "true" else "false")
  | .vInt n => some (toString n)
  | .vStr s => some s
  | .vObjId h => some h
  | .vDoc _ => some "[object Object]"

/-- JS `typeof x === 'object'`; note that `typeof null` is `'object'`. -/
def jsTypeofIsObject : BVal → Bool
  | .vNull => true
  | .vDoc _ => true
  | _ => false

mutual

/-- Model of `convertIdToString(obj)` (index.js lines 146-157): primitives
and null are returned unchanged; in a document, every field named `_id` is
replaced by its `toString()` and every other object-valued field is
converted recursively. `none` models a thrown `TypeError` (a null `_id`). -/
def convertIdToString : BVal → Option BVal
  | .vDoc fields =>
    match convFields fields with
    | some fs => some (.vDoc fs)
    | none => none
  | v => some v

/-- Field-list worker for `convertIdToString`, mirroring its `for..in`
loop. -/
def convFields : List (String × BVal) → Option (List (String × BVal))
  | [] => some []
  | (k, v) :: rest =>
    match (if k = "_id" then (jsToString v).map BVal.vStr
           else if jsTypeofIsObject v then convertIdToString v
           else some v), convFields rest with
    | some v', some rest' => some ((k, v') :: rest')
    | _, _ => none

end

/-- Recogniser for string values. -/
def isVStr : BVal → Bool
  | .vStr _ => true
  | _ => false

mutual

/-- Holds when every field named `_id`, at any nesting depth, carries a
string value. -/
def idsStringified : BVal → Bool
  | .vDoc fields => idsStringifiedFields fields
  | _ => true

/-- Field-list worker for `idsStringified`. -/
def idsStringifiedFields : List (String × BVal) → Bool
  | [] => true
  | (k, v) :: rest =>
      (if k = "_id" then isVStr v else idsStringified v) && idsStringifiedFields rest

end

/-- JS property read `doc[k]` on a document value (`none` = `undefined`). -/
def getField (v : BVal) (k : String) : Option BVal :=
  match v with
  | .vDoc fields => fields.lookup k
  | _ => none

/-- JS `delete doc[k]`, as a pure function. -/
def deleteField (v : BVal) (k : String) : BVal :=
  match v with
  | .vDoc fields => .vDoc (fields.filter (fun p => !(p.1 == k)))
  | v => v

/-- Assignment of one top-level field: replace in place if the key is
present, append otherwise (JS object property write). -/
def setField : List (String × BVal) → String → BVal → List (String × BVal)
  | [], k, v => [(k, v)]
  | (k', v') :: rest, k, v =>
    if k' = k then (k, v) :: rest else (k', v') :: setField rest k v

/-- Left fold of `setField` over the new fields: the semantics of
Firestore `update`, which assigns each top-level field of the argument. -/
def mergeList : List (String × BVal) → List (String × BVal) → List (String × BVal)
  | l, [] => l
  | l, (k, v) :: rest => mergeList (setField l k v) rest

/-- One Firestore collection of the target database: a partial map from
document id to document body. -/
abbrev TargetColl := String → Option BVal

/-- Firestore `ref.set(body)`: full-document replace, creating the
document if absent. -/
def fsSet (st : TargetColl) (k : String) (body : BVal) : TargetColl :=
  fun x => if x = k then some body else st x

/-- Firestore `ref.delete()`: removes the document; removing an absent key
is a no-op. -/
def fsDelete (st : TargetColl) (k : String) : TargetColl :=
  fun x => if x = k then none else st x

/-- Merge the update payload into the existing body, field by field. -/
def mergeBody (old new : BVal) : BVal :=
  match new with
  | .vDoc n =>
    match old with
    | .vDoc o => .vDoc (mergeList o n)
    | _ => .vDoc (mergeList [] n)
  | _ => new

/-- Firestore `ref.update(body)`: merges the given top-level fields into
the existing document, and fails with `NOT_FOUND` when the document does
not exist. -/
def fsUpdate (st : TargetColl) (k : String) (body : BVal) : Except String TargetColl :=
  match st k with
  | none => .error "NOT_FOUND"
  | some old => .ok (fsSet st k (mergeBody old body))

/-- Change-stream operation kinds handled by the script. -/
inductive OpType where
  | insert
  | update
  | delete
deriving DecidableEq

/-- Opaque resume-token value carried by the change stream. -/
abbrev ResumeTok := String

/-- One change-stream event as consumed by the `change` handler:
`operationType`, optional `fullDocument` (post-image), `documentKey` (a
document holding only the `_id`) and the stream's resume position after
this event. -/
structure ChangeEvent where
  operationType : OpType
  fullDocument : Option BVal
  documentKey : BVal
  resumePos : ResumeTok

/-- JS `x._id.toString()`: `none` models the `TypeError` thrown when `_id`
is absent (`undefined`) or null. -/
def jsIdString (v : BVal) : Option String :=
  match getField v "_id" with
  | none => none
  | some idv => jsToString idv

/-- Write part of the `change` handler (index.js lines 60-71): insert does
`targetCollection.doc(fullDocument._id.toString())` then `ref.set`, update
does the same lookup then `ref.update`, delete keys off
`documentKey._id.toString()` then `ref.delete`. `Except.error` models a
thrown exception (including the `TypeError` of a missing `_id`), which no
code in the handler catches. -/
def applyChange (st : TargetColl) (ch : ChangeEvent) : Except String TargetColl :=
  match ch.operationType with
  | .insert =>
    match ch.fullDocument with
    | none => .error "TypeError"
    | some fd =>
      match jsIdString fd with
      | none => .error "TypeError"
      | some key => .ok (fsSet st key (deleteField fd "_id"))
  | .update =>
    match ch.fullDocument with
    | none => .error "TypeError"
    | some fd =>
      match jsIdString fd with
      | none => .error "TypeError"
      | some key => fsUpdate st key (deleteField fd "_id")
  | .delete =>
    match jsIdString ch.documentKey with
    | none => .error "TypeError"
    | some key => .ok (fsDelete st key)

/-- Resulting target state of one handler invocation: on an error the
write never happened, so the state is unchanged. -/
def applyOnce (st : TargetColl) (ch : ChangeEvent) : TargetColl :=
  match applyChange st ch with
  | .ok st' => st'
  | .error _ => st

/-- State threaded through the live-replication event loop: the target
collection, the `changeCount` counter, a count of successfully applied
events, the list of resume tokens passed to `saveResumeToken`, and the
errors that escaped the handler. -/
structure LiveState where
  target : TargetColl
  changeCount : Nat
  applied : Nat
  savedTokens : List ResumeTok
  errors : List String

/-- One invocation of the `change` handler (index.js lines 55-84): apply
the event; a thrown error aborts the rest of the handler (no counter
increment, no save); otherwise increment `changeCount` and, once it
reaches `saveThreshold`, save the stream's resume token and reset the
counter. -/
def onChange (saveThreshold : Nat) (st : LiveState) (ch : ChangeEvent) : LiveState :=
  match applyChange st.target ch with
  | .error e => { st with errors := st.errors ++ [e] }
  | .ok tgt =>
    let c := st.changeCount + 1
    if c ≥ saveThreshold then
      { target := tgt, changeCount := 0, applied := st.applied + 1,
        savedTokens := st.savedTokens ++ [ch.resumePos], errors := st.errors }
    else
      { target := tgt, changeCount := c, applied := st.applied + 1,
        savedTokens := st.savedTokens, errors := st.errors }

/-- The live-replication loop under the serialized (non-overlapping)
schedule: each handler invocation completes before the next event is
handled. The source's emitter does not itself enforce this — `execSched`
below is the general interleaved semantics and `serialSched` recovers
this fold (`serial_exec_eq_runLive`). -/
def runLive (saveThreshold : Nat) (st : LiveState) (evs : List ChangeEvent) : LiveState :=
  evs.foldl (onChange saveThreshold) st

/-- Fresh pipeline state: empty target, zero counters, nothing saved. -/
def initLive : LiveState :=
  { target := fun _ => none, changeCount := 0, applied := 0, savedTokens := [], errors := [] }

/-- Result of reading a resume-token file: present with parsed content,
absent (`ENOENT`), unparsable content, or another read error. -/
inductive FRead where
  | missing
  | stored (resumeToken : Option ResumeTok)
  | corrupt
  | readErr (e : String)
deriving DecidableEq

/-- The file system visible to the token helpers, one `FRead` per path. -/
abbrev FileSys := String → FRead

/-- Model of `saveResumeToken(filePath, resumeToken)` (index.js lines
178-185): overwrites the file with the serialized `resumeToken` record. -/
def saveResumeToken (fs : FileSys) (filePath : String) (resumeToken : Option ResumeTok) :
    FileSys :=
  fun p => if p = filePath then .stored resumeToken else fs p

/-- Model of `loadResumeToken(filePath)` (index.js lines 160-175): a
present file is parsed and its `resumeToken` returned; `ENOENT` creates a
placeholder file with a null token and returns null; a parse failure or
any other read error is rethrown. -/
def loadResumeToken (fs : FileSys) (filePath : String) :
    FileSys × Except String (Option ResumeTok) :=
  match fs filePath with
  | .stored t => (fs, .ok t)
  | .missing => (saveResumeToken fs filePath none, .ok none)
  | .corrupt => (fs, .error "SyntaxError")
  | .readErr e => (fs, .error e)

/-- Startup decision of one live pipeline: whether initial sync ran and
which position the change stream starts after. -/
structure PipeStart where
  initialSyncRan : Bool
  startAfter : Option ResumeTok
deriving DecidableEq

/-- Startup part of `startLiveReplication` (index.js lines 41-48): the
stream is opened with `startAfter` exactly when a token was passed, and
`migrateCollection` (initial sync) runs exactly when `resumeToken` is
falsy, i.e. when the loaded token is null. -/
def startLiveReplication (resumeToken : Option ResumeTok) : PipeStart :=
  { initialSyncRan := resumeToken.isNone, startAfter := resumeToken }

/-- Live-mode startup for one mapping (index.js lines 111-114): load the
token from the mapping's file, then start the pipeline; a load error
propagates. -/
def liveStartup (fs : FileSys) (filePath : String) : FileSys × Except String PipeStart :=
  match loadResumeToken fs filePath with
  | (fs', .ok tok) => (fs', .ok (startLiveReplication tok))
  | (fs', .error e) => (fs', .error e)

/-- Result of scanning one source collection with a forward-only cursor:
the documents yielded in order, then optionally an error thrown by the
cursor after the last yielded document. -/
structure ScanResult where
  docs : List BVal
  scanErr : Option String

/-- Per-document body of the migration loop (index.js lines 18-24):
convert the ids, key the target document off the converted `_id`, delete
`_id` from the body and `ref.set` the rest. `Except.error` models a
thrown exception (missing or null `_id`). -/
def migrateStep (tgt : TargetColl) (doc : BVal) : Except String TargetColl :=
  match convertIdToString doc with
  | none => .error "TypeError"
  | some d =>
    match getField d "_id" with
    | some (.vStr s) => .ok (fsSet tgt s (deleteField d "_id"))
    | _ => .error "TypeError"

/-- The migration cursor loop: documents are processed in order; a thrown
error stops the loop (it is caught by `migrateCollection`'s catch). -/
def migrateDocs (tgt : TargetColl) : List BVal → TargetColl × Option String
  | [] => (tgt, none)
  | d :: rest =>
    match migrateStep tgt d with
    | .error e => (tgt, some e)
    | .ok tgt' => migrateDocs tgt' rest

/-- Model of `migrateCollection` (index.js lines 9-30): run the cursor
loop; every error — thrown mid-loop or by the cursor itself — is caught
inside the function and only logged, so the caller always gets a normal
return carrying the target state reached so far and the logged error. -/
def migrateCollection (scan : ScanResult) (tgt : TargetColl) : TargetColl × Option String :=
  match migrateDocs tgt scan.docs with
  | (t, some e) => (t, some e)
  | (t, none) => (t, scan.scanErr)

/-- One collection mapping from the configuration. -/
structure Mapping where
  sourceCollection : String
  targetCollection : String
deriving DecidableEq

/-- The source database: a scan result per source collection name. -/
abbrev SourceDb := String → ScanResult

/-- The target database: a collection per target collection name. -/
abbrev TargetDb := String → TargetColl

/-- Outcome of a migrate-mode run over one database pair: the final target
database and the per-mapping error log (source collection, error). -/
structure MigrateOutcome where
  target : TargetDb
  logs : List (String × String)

/-- One iteration of the mapping loop in `processDatabase` (index.js lines
105-119, migrate mode): migrate the mapping's source collection into its
target collection; an error was caught and logged inside
`migrateCollection`, so the loop always continues with the next mapping. -/
def processMapping (src : SourceDb) (acc : MigrateOutcome) (m : Mapping) : MigrateOutcome :=
  let r := migrateCollection (src m.sourceCollection) (acc.target m.targetCollection)
  { target := fun c => if c = m.targetCollection then r.1 else acc.target c,
    logs := acc.logs ++ (match r.2 with
      | some e => [(m.sourceCollection, e)]
      | none => []) }

/-- Migrate-mode body of `processDatabase`: the sequential `for` loop over
the configured collection mappings. -/
def processDatabase (src : SourceDb) (tgt : TargetDb) (mappings : List Mapping) :
    MigrateOutcome :=
  mappings.foldl (processMapping src) { target := tgt, logs := [] }

/-- One configured database pair, reduced to its collection mappings. -/
structure DbPair where
  mappings : List Mapping
deriving DecidableEq

/-- The replication configuration consumed by the entry point. -/
structure Config where
  databasePairs : List DbPair
  saveThreshold : Nat
deriving DecidableEq

/-- Observable outcome of `startProcess`: which mappings had a pipeline
started, and the exit code if `process.exit` was hit. -/
structure ProcOutcome where
  started : List Mapping
  exitCode : Option Nat
deriving DecidableEq

/-- Model of `startProcess(mode)` (index.js lines 131-144): a mode other
than `migrate` or `live` hits `process.exit(1)` before the loop over
database pairs, so no pipeline starts; a valid mode processes every
mapping of every pair. -/
def startProcess (mode : String) (config : Config) : ProcOutcome :=
  if mode = "migrate" ∨ mode = "live" then
    { started := config.databasePairs.foldl (fun acc p => acc ++ p.mappings) [],
      exitCode := none }
  else
    { started := [], exitCode := some 1 }

/-- Model of `const mode = process.argv[2] || 'migrate'` (index.js line
188): an absent or empty (falsy) argument defaults to `migrate`. -/
def modeOf (argv2 : Option String) : String :=
  match argv2 with
  | none => "migrate"
  | some s => if s = "" then "migrate" else s

/-- Modelled from the spec: apply semantics in which insert and update
both resolve to a full-document replace keyed by the stringified
identifier (spec section 4.5). Stated only to compare with the code's
`applyChange`. -/
def applyChangeReplaceSpec (st : TargetColl) (ch : ChangeEvent) : Except String TargetColl :=
  match ch.operationType with
  | .insert | .update =>
    match ch.fullDocument with
    | none => .error "TypeError"
    | some fd =>
      match jsIdString fd with
      | none => .error "TypeError"
      | some key => .ok (fsSet st key (deleteField fd "_id"))
  | .delete =>
    match jsIdString ch.documentKey with
    | none => .error "TypeError"
    | some key => .ok (fsDelete st key)

/-- Insert event for document id 1 (ordering scenario of claim C5). -/
def c5Insert : ChangeEvent :=
  { operationType := .insert,
    fullDocument := some (.vDoc [("_id", .vInt 1), ("name", .vStr "a")]),
    documentKey := .vDoc [("_id", .vInt 1)], resumePos := "t1" }

/-- Update event for document id 1 (ordering scenario of claim C5). -/
def c5Update : ChangeEvent :=
  { operationType := .update,
    fullDocument := some (.vDoc [("_id", .vInt 1), ("name", .vStr "b")]),
    documentKey := .vDoc [("_id", .vInt 1)], resumePos := "t2" }

/-- Delete event for document id 1 (ordering scenario of claim C5). -/
def c5Delete : ChangeEvent :=
  { operationType := .delete, fullDocument := none,
    documentKey := .vDoc [("_id", .vInt 1)], resumePos := "t3" }

/-- Insert event whose payload lacks the top-level `_id` (claim C3). -/
def c3Event : ChangeEvent :=
  { operationType := .insert,
    fullDocument := some (.vDoc [("name", .vStr "a")]),
    documentKey := .vDoc [("_id", .vInt 5)], resumePos := "t" }

/-- Target collection holding one document `"1"` with two fields (claim
C2 counterexample). -/
def c2State : TargetColl :=
  fsSet (fun _ => none) "1" (.vDoc [("a", .vInt 1), ("b", .vInt 2)])

/-- Update event carrying a full document that no longer has field `b`
(claim C2 counterexample). -/
def c2Update : ChangeEvent :=
  { operationType := .update,
    fullDocument := some (.vDoc [("_id", .vInt 1), ("a", .vInt 3)]),
    documentKey := .vDoc [("_id", .vInt 1)], resumePos := "t" }

/-- Insert event whose payload holds a nested `_id` inside the `ref`
sub-document (claim C6 counterexample). -/
def c6Event : ChangeEvent :=
  { operationType := .insert,
    fullDocument := some (.vDoc [("_id", .vObjId "x"),
      ("ref", .vDoc [("_id", .vObjId "y")])]),
    documentKey := .vDoc [("_id", .vObjId "x")], resumePos := "t" }

/-- Single insert event used for the claim C4 counterexample. -/
def c4Event : ChangeEvent :=
  { operationType := .insert,
    fullDocument := some (.vDoc [("_id", .vInt 7), ("name", .vStr "n")]),
    documentKey := .vDoc [("_id", .vInt 7)], resumePos := "tok7" }

/-- Source database for the claim C8 witness: collection `a` holds a
document without `_id` (its migration throws and is logged), collection
`b` migrates cleanly. -/
def c8Source : SourceDb :=
  fun c =>
    if c = "a" then { docs := [.vDoc [("name", .vStr "x")]], scanErr := none }
    else if c = "b" then
      { docs := [.vDoc [("_id", .vInt 2), ("name", .vStr "y")]], scanErr := none }
    else { docs := [], scanErr := none }

/-- Small configuration used by the claim C7 witness. -/
def c7Config : Config :=
  { databasePairs := [{ mappings := [{ sourceCollection := "s", targetCollection := "t" }] }],
    saveThreshold := 100 }

/-- The write RPC a handler issues synchronously on entry, before its
first await. -/
inductive WriteOp where
  | wset (key : String) (body : BVal)
  | wupdate (key : String) (body : BVal)
  | wdelete (key : String)

/-- Synchronous prefix of the `change` handler (index.js lines 56-70, up
to the first `await`): pick the operation branch, compute the document
reference from the stringified `_id` (a missing or null id throws) and
issue the write. -/
def seg0 (ch : ChangeEvent) : Except String WriteOp :=
  match ch.operationType with
  | .insert =>
    match ch.fullDocument with
    | none => .error "TypeError"
    | some fd =>
      match jsIdString fd with
      | none => .error "TypeError"
      | some key => .ok (.wset key (deleteField fd "_id"))
  | .update =>
    match ch.fullDocument with
    | none => .error "TypeError"
    | some fd =>
      match jsIdString fd with
      | none => .error "TypeError"
      | some key => .ok (.wupdate key (deleteField fd "_id"))
  | .delete =>
    match jsIdString ch.documentKey with
    | none => .error "TypeError"
    | some key => .ok (.wdelete key)

/-- Effect of an issued write when the server applies it (observed at the
await's completion): `update` of an absent document rejects with
`NOT_FOUND`. -/
def applyWrite (st : TargetColl) : WriteOp → Except String TargetColl
  | .wset key body => .ok (fsSet st key body)
  | .wupdate key body => fsUpdate st key body
  | .wdelete key => .ok (fsDelete st key)

/-- A handler suspended at one of its two awaits: waiting for its write
RPC, or waiting for the resume-token save it initiated after passing the
threshold (the token was read when the save started). -/
inductive InFlight where
  | awaitingWrite (wr : WriteOp)
  | awaitingSave (tok : ResumeTok)

/-- Remove and return the i-th suspended handler, if any. -/
def pickHandler : Nat → List InFlight → Option (InFlight × List InFlight)
  | _, [] => none
  | 0, h :: rest => some (h, rest)
  | Nat.succ n, h :: rest =>
    match pickHandler n rest with
    | none => none
    | some (p, rest') => some (p, h :: rest')

/-- Event-loop state of one live pipeline: the shared mutable state of the
handler closures (target, `changeCount`, token saves, errors), the
stream's current resume position, the feed events not yet emitted and the
handlers suspended at an await. `applied` counts completed writes. -/
structure ExecState where
  target : TargetColl
  changeCount : Nat
  applied : Nat
  savedTokens : List ResumeTok
  errors : List String
  streamPos : ResumeTok
  feed : List ChangeEvent
  handlers : List InFlight

/-- One scheduler decision: the stream emits its next event (running that
handler's synchronous prefix), or the i-th suspended handler's pending
await resolves (running the handler's next synchronous segment). -/
inductive SchedAct where
  | deliver
  | complete (i : Nat)

/-- Small-step interleaved semantics of the `change` handler. `deliver`
runs `seg0` of the next feed event (the emitter calls the listener
synchronously and in feed order, and never awaits it); a thrown error dies
there. `complete i` resolves handler i's await: a completed write applies
its server effect, then runs `changeCount++` and the threshold check,
initiating a save of the stream's current token when passed — the counter
is reset only when that save later completes, exactly as in the source
(index.js lines 73-79). -/
def execStep (saveThreshold : Nat) (s : ExecState) : SchedAct → ExecState
  | .deliver =>
    match s.feed with
    | [] => s
    | ch :: rest =>
      match seg0 ch with
      | .error e =>
        { s with feed := rest, streamPos := ch.resumePos, errors := s.errors ++ [e] }
      | .ok wr =>
        { s with feed := rest, streamPos := ch.resumePos,
                 handlers := s.handlers ++ [.awaitingWrite wr] }
  | .complete i =>
    match pickHandler i s.handlers with
    | none => s
    | some (.awaitingWrite wr, rest) =>
      match applyWrite s.target wr with
      | .error e => { s with handlers := rest, errors := s.errors ++ [e] }
      | .ok tgt =>
        if s.changeCount + 1 ≥ saveThreshold then
          { s with target := tgt, changeCount := s.changeCount + 1,
                   applied := s.applied + 1,
                   handlers := rest ++ [.awaitingSave s.streamPos] }
        else
          { s with target := tgt, changeCount := s.changeCount + 1,
                   applied := s.applied + 1, handlers := rest }
    | some (.awaitingSave tok, rest) =>
      { s with handlers := rest, savedTokens := s.savedTokens ++ [tok],
               changeCount := 0 }

/-- Run the pipeline under an explicit schedule. -/
def execSched (saveThreshold : Nat) (s : ExecState) (acts : List SchedAct) : ExecState :=
  acts.foldl (execStep saveThreshold) s

/-- The serialized schedule: emit each event and let its handler's awaits
(at most two) complete before the next event is emitted. A `complete 0`
with no suspended handler is a no-op. -/
def serialSched : List ChangeEvent → List SchedAct
  | [] => []
  | _ :: rest => .deliver :: .complete 0 :: .complete 0 :: serialSched rest

/-- Fresh event-loop state over a given feed. -/
def initExec (evs : List ChangeEvent) : ExecState :=
  { target := fun _ => none, changeCount := 0, applied := 0, savedTokens := [],
    errors := [], streamPos := "", feed := evs, handlers := [] }

/-- Shared-state projection of the event-loop state. -/
def toLive (s : ExecState) : LiveState :=
  { target := s.target, changeCount := s.changeCount, applied := s.applied,
    savedTokens := s.savedTokens, errors := s.errors }

/-- Second insert event for the claim C4 overlap scenario. -/
def c4Event2 : ChangeEvent :=
  { operationType := .insert,
    fullDocument := some (.vDoc [("_id", .vInt 8), ("name", .vStr "p")]),
    documentKey := .vDoc [("_id", .vInt 8)], resumePos := "tok8" }

/-- Third insert event for the claim C4 overlap scenario. -/
def c4Event3 : ChangeEvent :=
  { operationType := .insert,
    fullDocument := some (.vDoc [("_id", .vInt 9), ("name", .vStr "q")]),
    documentKey := .vDoc [("_id", .vInt 9)], resumePos := "tok9" }

/-- Overlapping schedule for claim C4: the third event's write completes
while the save initiated by the second event is still pending, so its
handler reads the not-yet-reset counter (3 ≥ 2) and initiates a second
save; both saves then complete. -/
def c4OverlapSched : List SchedAct :=
  [.deliver, .complete 0, .deliver, .deliver, .complete 0, .complete 0,
   .complete 0, .complete 0]

theorem notDoc_idsStringified (v : BVal) (h : jsTypeofIsObject v = false) :
    idsStringified v = true := by
  cases v <;> simp_all [jsTypeofIsObject, idsStringified]

mutual

theorem conv_ids (v v' : BVal) (h : convertIdToString v = some v') :
    idsStringified v' = true := by
  match v with
  | .vDoc fields =>
    rw [convertIdToString] at h
    split at h
    · next fs hfs =>
      cases h
      have := convFields_ids fields fs hfs
      simpa [idsStringified] using this
    · cases h
  | .vNull => cases h; rfl
  | .vBool b => cases h; rfl
  | .vInt n => cases h; rfl
  | .vStr s => cases h; rfl
  | .vObjId o => cases h; rfl

theorem convFields_ids (l l' : List (String × BVal)) (h : convFields l = some l') :
    idsStringifiedFields l' = true := by
  match l with
  | [] =>
    rw [convFields] at h
    cases h
    rfl
  | (k, v) :: rest =>
    rw [convFields] at h
    split at h
    · next v' rest' hv hrest =>
      cases h
      rw [idsStringifiedFields, Bool.and_eq_true]
      refine ⟨?_, convFields_ids rest rest' hrest⟩
      split at hv
      · next hk =>
        simp only [Option.map_eq_some'] at hv
        obtain ⟨s, _, rfl⟩ := hv
        simp [hk, isVStr]
      · next hk =>
        split at hv
        · next hobj =>
          simp only [hk, if_neg]
          exact conv_ids v v' hv
        · next hobj =>
          cases hv
          simp only [hk, if_neg]
          exact notDoc_idsStringified v (by simpa using hobj)
    · cases h

end

theorem lookup_setField_self (l : List (String × BVal)) (k : String) (v : BVal) :
    List.lookup k (setField l k v) = some v := by
  induction l with
  | nil => simp [setField, List.lookup]
  | cons p rest ih =>
    obtain ⟨k', v'⟩ := p
    by_cases h : k' = k
    · simp [setField, h, List.lookup]
    · have hb : (k == k') = false := beq_eq_false_iff_ne.mpr (Ne.symm h)
      simp [setField, h, List.lookup, hb, ih]

theorem lookup_setField_ne (l : List (String × BVal)) (k k2 : String) (v2 : BVal)
    (h : k ≠ k2) :
    List.lookup k (setField l k2 v2) = List.lookup k l := by
  have hb : (k == k2) = false := beq_eq_false_iff_ne.mpr h
  induction l with
  | nil => simp [setField, List.lookup, hb]
  | cons p rest ih =>
    obtain ⟨k', v'⟩ := p
    by_cases h2 : k' = k2
    · subst h2
      simp [setField, List.lookup, hb]
    · simp [setField, h2, List.lookup, ih]

theorem lookup_mergeList_notin (l n : List (String × BVal)) (k : String)
    (h : k ∉ n.map Prod.fst) :
    List.lookup k (mergeList l n) = List.lookup k l := by
  induction n generalizing l with
  | nil => simp [mergeList]
  | cons p rest ih =>
    obtain ⟨k2, v2⟩ := p
    simp only [List.map_cons, List.mem_cons] at h
    push_neg at h
    rw [mergeList, ih _ h.2, lookup_setField_ne _ _ _ _ h.1]

theorem setField_lookup_eq (l : List (String × BVal)) (k : String) (v : BVal)
    (h : List.lookup k l = some v) :
    setField l k v = l := by
  induction l with
  | nil => simp [List.lookup] at h
  | cons p rest ih =>
    obtain ⟨k', v'⟩ := p
    by_cases hk : k' = k
    · subst hk
      simp [List.lookup] at h
      simp [setField, h]
    · have hb : (k == k') = false := beq_eq_false_iff_ne.mpr (Ne.symm hk)
      simp [List.lookup, hb] at h
      simp [setField, hk, ih h]

theorem mergeList_idem (l n : List (String × BVal)) (h : (n.map Prod.fst).Nodup) :
    mergeList (mergeList l n) n = mergeList l n := by
  induction n generalizing l with
  | nil => simp [mergeList]
  | cons p rest ih =>
    obtain ⟨k, v⟩ := p
    simp only [List.map_cons, List.nodup_cons] at h
    rw [mergeList, mergeList]
    have hl : List.lookup k (mergeList (setField l k v) rest) = some v := by
      rw [lookup_mergeList_notin _ _ _ h.1, lookup_setField_self]
    rw [setField_lookup_eq _ _ _ hl]
    exact ih _ h.2

theorem lookup_filter_key_none (l : List (String × BVal)) (k : String) :
    (l.filter (fun p => !(p.1 == k))).lookup k = none := by
  induction l with
  | nil => rfl
  | cons p rest ih =>
    obtain ⟨k', v'⟩ := p
    by_cases h : k' = k
    · simp [List.filter, h, ih]
    · have hb : (k' == k) = false := beq_eq_false_iff_ne.mpr h
      have hb2 : (k == k') = false := beq_eq_false_iff_ne.mpr (Ne.symm h)
      simp [List.filter, hb, List.lookup, hb2, ih]

theorem fsSet_fsSet (st : TargetColl) (k : String) (b b' : BVal) :
    fsSet (fsSet st k b) k b' = fsSet st k b' := by
  funext x
  by_cases h : x = k <;> simp [fsSet, h]

theorem fsSet_apply_self (st : TargetColl) (k : String) (b : BVal) :
    fsSet st k b k = some b := by
  simp [fsSet]

theorem mergeBody_idem (old b : BVal) (fields : List (String × BVal))
    (hb : b = .vDoc fields) (h : (fields.map Prod.fst).Nodup) :
    mergeBody (mergeBody old b) b = mergeBody old b := by
  subst hb
  cases old <;> simp [mergeBody, mergeList_idem _ _ h]

theorem nodup_filter_keys (fields : List (String × BVal)) (p : String × BVal → Bool)
    (h : (fields.map Prod.fst).Nodup) :
    ((fields.filter p).map Prod.fst).Nodup :=
  h.sublist ((List.filter_sublist fields).map Prod.fst)

theorem applyOnce_idem (st : TargetColl) (ch : ChangeEvent) (fields : List (String × BVal))
    (hop : ch.operationType = .insert ∨ ch.operationType = .update)
    (hfd : ch.fullDocument = some (.vDoc fields))
    (hnd : (fields.map Prod.fst).Nodup) :
    applyOnce (applyOnce st ch) ch = applyOnce st ch := by
  obtain ⟨op, fdoc, dk, tok⟩ := ch
  simp only at hop hfd
  subst hfd
  rcases hop with hop | hop <;> subst hop
  · simp only [applyOnce, applyChange]
    cases hkey : jsIdString (.vDoc fields) with
    | none => simp [hkey]
    | some key => simp [hkey, fsSet_fsSet]
  · simp only [applyOnce, applyChange]
    cases hkey : jsIdString (.vDoc fields) with
    | none => simp [hkey]
    | some key =>
      simp only [hkey]
      cases hst : st key with
      | none => simp [fsUpdate, hst]
      | some old =>
        simp only [fsUpdate, hst, fsSet_apply_self]
        rw [mergeBody_idem old (deleteField (BVal.vDoc fields) "_id")
              (fields.filter fun p => !(p.1 == "_id")) rfl
              (nodup_filter_keys _ _ hnd), fsSet_fsSet]

theorem onChange_inv (N : Nat) (st : LiveState) (ch : ChangeEvent)
    (h1 : st.applied = N * st.savedTokens.length + st.changeCount)
    (h2 : st.changeCount < N) :
    (onChange N st ch).applied =
      N * (onChange N st ch).savedTokens.length + (onChange N st ch).changeCount ∧
    (onChange N st ch).changeCount < N := by
  unfold onChange
  cases applyChange st.target ch with
  | error e => exact ⟨h1, h2⟩
  | ok tgt =>
    simp only
    by_cases hc : st.changeCount + 1 ≥ N
    · simp only [if_pos hc, List.length_append, List.length_cons, List.length_nil,
        Nat.zero_add]
      have hms : N * (st.savedTokens.length + 1) = N * st.savedTokens.length + N :=
        Nat.mul_succ N st.savedTokens.length
      omega
    · simp only [if_neg hc]
      omega

theorem runLive_inv (N : Nat) (evs : List ChangeEvent) (st : LiveState)
    (h1 : st.applied = N * st.savedTokens.length + st.changeCount)
    (h2 : st.changeCount < N) :
    (runLive N st evs).applied =
      N * (runLive N st evs).savedTokens.length + (runLive N st evs).changeCount ∧
    (runLive N st evs).changeCount < N := by
  induction evs generalizing st with
  | nil => exact ⟨h1, h2⟩
  | cons ch rest ih =>
    have hstep := onChange_inv N st ch h1 h2
    exact ih (onChange N st ch) hstep.1 hstep.2

theorem onChange_target (N : Nat) (st : LiveState) (ch : ChangeEvent) :
    (onChange N st ch).target =
      match applyChange st.target ch with
      | .ok t => t
      | .error _ => st.target := by
  unfold onChange
  cases applyChange st.target ch with
  | error e => rfl
  | ok tgt =>
    simp only
    split <;> rfl

theorem processMapping_target_ne (src : SourceDb) (acc : MigrateOutcome) (m : Mapping)
    (c : String) (h : c ≠ m.targetCollection) :
    (processMapping src acc m).target c = acc.target c := by
  simp [processMapping, h]

theorem foldl_target_notin (src : SourceDb) (ms : List Mapping) (acc : MigrateOutcome)
    (c : String) (h : c ∉ ms.map Mapping.targetCollection) :
    (ms.foldl (processMapping src) acc).target c = acc.target c := by
  induction ms generalizing acc with
  | nil => rfl
  | cons m0 rest ih =>
    simp only [List.map_cons, List.mem_cons] at h
    push_neg at h
    rw [List.foldl_cons, ih _ h.2, processMapping_target_ne _ _ _ _ h.1]

theorem foldl_logs_mono (src : SourceDb) (ms : List Mapping) (acc : MigrateOutcome)
    (x : String × String) (h : x ∈ acc.logs) :
    x ∈ (ms.foldl (processMapping src) acc).logs := by
  induction ms generalizing acc with
  | nil => exact h
  | cons m0 rest ih =>
    rw [List.foldl_cons]
    refine ih _ ?_
    simp only [processMapping]
    exact List.mem_append_left _ h

theorem foldl_mapping_independent (src : SourceDb) (ms : List Mapping)
    (acc : MigrateOutcome) (m : Mapping) (hm : m ∈ ms)
    (hnd : (ms.map Mapping.targetCollection).Nodup) :
    (ms.foldl (processMapping src) acc).target m.targetCollection
      = (migrateCollection (src m.sourceCollection) (acc.target m.targetCollection)).1
    ∧ ∀ e, (migrateCollection (src m.sourceCollection) (acc.target m.targetCollection)).2
        = some e →
      (m.sourceCollection, e) ∈ (ms.foldl (processMapping src) acc).logs := by
  induction ms generalizing acc with
  | nil => cases hm
  | cons m0 rest ih =>
    simp only [List.map_cons, List.nodup_cons] at hnd
    rw [List.mem_cons] at hm
    rcases hm with rfl | hm
    · rw [List.foldl_cons]
      constructor
      · rw [foldl_target_notin _ _ _ _ hnd.1]
        simp [processMapping]
      · intro e he
        refine foldl_logs_mono _ _ _ _ ?_
        simp only [processMapping, he]
        exact List.mem_append_right _ (by simp)
    · have hne : m.targetCollection ≠ m0.targetCollection := by
        intro hEq
        exact hnd.1 (hEq ▸ List.mem_map_of_mem Mapping.targetCollection hm)
      rw [List.foldl_cons]
      have := ih (processMapping src acc m0) hm hnd.2
      rwa [processMapping_target_ne _ _ _ _ hne] at this

theorem applyChange_decomp (st : TargetColl) (ch : ChangeEvent) :
    applyChange st ch = (seg0 ch).bind (applyWrite st) := by
  obtain ⟨op, fdoc, dk, tok⟩ := ch
  cases op with
  | insert =>
    cases fdoc with
    | none => rfl
    | some fd =>
      simp only [applyChange, seg0]
      cases jsIdString fd <;> rfl
  | update =>
    cases fdoc with
    | none => rfl
    | some fd =>
      simp only [applyChange, seg0]
      cases jsIdString fd <;> rfl
  | delete =>
    simp only [applyChange, seg0]
    cases jsIdString dk <;> rfl

theorem serial_block (N : Nat) (s : ExecState) (ch : ChangeEvent)
    (rest : List ChangeEvent) (hh : s.handlers = []) (hf : s.feed = ch :: rest) :
    toLive (execStep N (execStep N (execStep N s .deliver) (.complete 0)) (.complete 0))
        = onChange N (toLive s) ch ∧
    (execStep N (execStep N (execStep N s .deliver) (.complete 0)) (.complete 0)).handlers
        = [] ∧
    (execStep N (execStep N (execStep N s .deliver) (.complete 0)) (.complete 0)).feed
        = rest := by
  obtain ⟨tgt, cc, ap, sv, er, sp, fd, hd⟩ := s
  simp only at hh hf
  subst hh
  subst hf
  cases hseg : seg0 ch with
  | error e =>
    have happ : applyChange tgt ch = .error e := by
      rw [applyChange_decomp, hseg]
      rfl
    simp only [execStep, hseg, pickHandler]
    refine ⟨?_, by trivial, by trivial⟩
    simp [toLive, onChange, happ]
  | ok wr =>
    have happ : applyChange tgt ch = applyWrite tgt wr := by
      rw [applyChange_decomp, hseg]
      rfl
    cases hw : applyWrite tgt wr with
    | error e =>
      simp only [execStep, hseg, List.nil_append, pickHandler, hw]
      refine ⟨?_, by trivial, by trivial⟩
      simp [toLive, onChange, happ, hw]
    | ok tgt2 =>
      by_cases hc : cc + 1 ≥ N
      · simp only [execStep, hseg, List.nil_append, pickHandler, hw, if_pos hc]
        refine ⟨?_, by trivial, by trivial⟩
        simp [toLive, onChange, happ, hw, hc]
      · simp only [execStep, hseg, List.nil_append, pickHandler, hw, if_neg hc]
        refine ⟨?_, by trivial, by trivial⟩
        simp [toLive, onChange, happ, hw, hc]

theorem serial_exec_toLive (N : Nat) (evs : List ChangeEvent) :
    ∀ s : ExecState, s.handlers = [] → s.feed = evs →
      toLive (execSched N s (serialSched evs)) = runLive N (toLive s) evs ∧
      (execSched N s (serialSched evs)).handlers = [] ∧
      (execSched N s (serialSched evs)).feed = [] := by
  induction evs with
  | nil =>
    intro s hh hf
    exact ⟨rfl, hh, hf⟩
  | cons ch rest ih =>
    intro s hh hf
    have hb := serial_block N s ch rest hh hf
    rw [serialSched]
    simp only [execSched, List.foldl_cons]
    have hih := ih (execStep N (execStep N (execStep N s .deliver) (.complete 0))
        (.complete 0)) hb.2.1 hb.2.2
    refine ⟨?_, hih.2.1, hih.2.2⟩
    rw [runLive, List.foldl_cons, ← hb.1]
    exact hih.1

theorem serial_exec_eq_runLive (N : Nat) (evs : List ChangeEvent) :
    toLive (execSched N (initExec evs) (serialSched evs)) = runLive N initLive evs :=
  (serial_exec_toLive N evs (initExec evs) rfl rfl).1

theorem runLive_saves_div (N : Nat) (hN : 1 ≤ N) (evs : List ChangeEvent) :
    (runLive N initLive evs).savedTokens.length = (runLive N initLive evs).applied / N ∧
    (runLive N initLive evs).changeCount = (runLive N initLive evs).applied % N := by
  have h := runLive_inv N evs initLive (by simp [initLive]) (by simp [initLive]; omega)
  obtain ⟨h1, h2⟩ := h
  rw [h1]
  constructor
  · rw [Nat.mul_add_div hN, Nat.div_eq_of_lt h2]
    omega
  · rw [Nat.mul_add_mod, Nat.mod_eq_of_lt h2]

theorem runLive_triple_target_none (N : Nat) (st : LiveState) :
    (runLive N st [c5Insert, c5Update, c5Delete]).target "1" = none := by
  rw [runLive]
  simp only [List.foldl_cons, List.foldl_nil]
  rw [onChange_target]
  have hdel : ∀ t : TargetColl, applyChange t c5Delete = .ok (fsDelete t "1") :=
    fun t => rfl
  rw [hdel]
  simp [fsDelete]

/-- Claim C1, counterexample: starting live replication with no checkpoint
file runs initial sync and creates the "none" placeholder; a second start
on the resulting file system finds the placeholder record and still runs
initial sync — so an existing placeholder does not skip Initial Sync and
initial sync executes twice across two restarts. -/
theorem placeholder_does_not_skip_initial_sync :
    ((liveStartup (fun _ => .missing) "resumeToken-db-c.json").2
        = .ok { initialSyncRan := true, startAfter := none }) ∧
    ((liveStartup (fun _ => .missing) "resumeToken-db-c.json").1 "resumeToken-db-c.json"
        = .stored none) ∧
    ((liveStartup ((liveStartup (fun _ => .missing) "resumeToken-db-c.json").1)
        "resumeToken-db-c.json").2
        = .ok { initialSyncRan := true, startAfter := none }) :=
  ⟨rfl, rfl, rfl⟩

/-- Claim C1, amended: Initial Sync is skipped exactly when the loaded
checkpoint record holds a non-null resume token, in which case the stream
resumes after it; a record whose saved position is null (the "none"
placeholder) does not skip Initial Sync, so the sync can run again on
every restart until a real token has been saved. -/
theorem initial_sync_skip_iff_nonnull_token (fs : FileSys) (filePath : String) :
    (∀ t, fs filePath = .stored (some t) →
      (liveStartup fs filePath).2
        = .ok { initialSyncRan := false, startAfter := some t }) ∧
    (fs filePath = .stored none →
      (liveStartup fs filePath).2
        = .ok { initialSyncRan := true, startAfter := none }) := by
  constructor
  · intro t h
    simp [liveStartup, loadResumeToken, h, startLiveReplication]
  · intro h
    simp [liveStartup, loadResumeToken, h, startLiveReplication]

/-- Claim C1, witness: on a file system whose record stores a real token,
startup skips initial sync and resumes after that token. -/
theorem initial_sync_skip_iff_nonnull_token_witness :
    ((fun _ => FRead.stored (some "tok") : FileSys) "p" = .stored (some "tok")) ∧
    (liveStartup (fun _ => FRead.stored (some "tok")) "p").2
      = .ok { initialSyncRan := false, startAfter := some "tok" } :=
  ⟨rfl, (initial_sync_skip_iff_nonnull_token (fun _ => FRead.stored (some "tok")) "p").1
      "tok" rfl⟩

/-- Claim C2, counterexample: on a target document with fields `a` and
`b`, an update event whose full document drops field `b` leaves `b` on the
target under the code's `ref.update` (field merge), whereas the claimed
full-document replace would remove it — so an update does not resolve to a
full-document replace. -/
theorem update_event_merges_rather_than_replaces :
    (match applyChange c2State c2Update with
     | .ok st => (st "1").bind (fun b => getField b "b")
     | .error _ => none) = some (.vInt 2) ∧
    (match applyChangeReplaceSpec c2State c2Update with
     | .ok st => (st "1").bind (fun b => getField b "b")
     | .error _ => none) = none :=
  ⟨rfl, rfl⟩

/-- Claim C2, amended: an insert event with a full document resolves to a
full-document replace keyed by the stringified identifier; an update event
resolves to a field-level merge of the full document's fields into the
existing target document (`ref.update`); in both cases applying the same
event twice yields the same target state as applying it once (the
identifier-field keys of a JS object are distinct, hence the `Nodup`
hypothesis). -/
theorem insert_replaces_update_merges_idempotent
    (st : TargetColl) (ch : ChangeEvent) (fields : List (String × BVal))
    (hfd : ch.fullDocument = some (.vDoc fields))
    (hnd : (fields.map Prod.fst).Nodup)
    (hop : ch.operationType = .insert ∨ ch.operationType = .update) :
    applyOnce (applyOnce st ch) ch = applyOnce st ch ∧
    (ch.operationType = .insert → ∀ key, jsIdString (.vDoc fields) = some key →
      applyChange st ch = .ok (fsSet st key (deleteField (.vDoc fields) "_id"))) ∧
    (ch.operationType = .update → ∀ key, jsIdString (.vDoc fields) = some key →
      applyChange st ch = fsUpdate st key (deleteField (.vDoc fields) "_id")) := by
  refine ⟨applyOnce_idem st ch fields hop hfd hnd, ?_, ?_⟩
  · intro hop2 key hkey
    obtain ⟨op, fdoc, dk, tok⟩ := ch
    simp only at hop2 hfd
    subst hop2
    subst hfd
    simp [applyChange, hkey]
  · intro hop2 key hkey
    obtain ⟨op, fdoc, dk, tok⟩ := ch
    simp only at hop2 hfd
    subst hop2
    subst hfd
    simp [applyChange, hkey]

/-- Claim C2, witness: the amended idempotence at the concrete update of
the counterexample state. -/
theorem insert_replaces_update_merges_idempotent_witness :
    (([("_id", BVal.vInt 1), ("a", BVal.vInt 3)].map Prod.fst).Nodup) ∧
    applyOnce (applyOnce c2State c2Update) c2Update = applyOnce c2State c2Update :=
  ⟨by decide, (insert_replaces_update_merges_idempotent c2State c2Update
      [("_id", BVal.vInt 1), ("a", BVal.vInt 3)] rfl (by decide) (Or.inr rfl)).1⟩

/-- Claim C3, counterexample: an insert event whose payload lacks the
top-level identifier makes the handler's apply raise a `TypeError` that
nothing in `startLiveReplication` catches — there is no report-and-skip
path, the error escapes the per-event handler. -/
theorem missing_id_error_escapes_handler :
    applyChange (fun _ => none) c3Event = .error "TypeError" := rfl

/-- Claim C3, amended: an insert or update event whose payload lacks the
top-level identifier fails before any write: the target is unchanged for
that event and the loop continues with subsequent events, but the failure
is an uncaught error recorded as escaping the handler, not a reported
skip — the pipeline has no handling for it. -/
theorem missing_id_event_skipped_uncaught
    (N : Nat) (st : LiveState) (ch : ChangeEvent)
    (fields : List (String × BVal)) (rest : List ChangeEvent)
    (hop : ch.operationType = .insert ∨ ch.operationType = .update)
    (hfd : ch.fullDocument = some (.vDoc fields))
    (hmiss : fields.lookup "_id" = none) :
    applyChange st.target ch = .error "TypeError" ∧
    (onChange N st ch).target = st.target ∧
    runLive N st (ch :: rest)
      = runLive N { st with errors := st.errors ++ ["TypeError"] } rest := by
  have hid : jsIdString (.vDoc fields) = none := by
    simp [jsIdString, getField, hmiss]
  have happ : applyChange st.target ch = .error "TypeError" := by
    obtain ⟨op, fdoc, dk, tok⟩ := ch
    simp only at hop hfd
    subst hfd
    rcases hop with rfl | rfl
    · simp [applyChange, hid]
    · simp [applyChange, hid]
  have hone : onChange N st ch = { st with errors := st.errors ++ ["TypeError"] } := by
    simp [onChange, happ]
  refine ⟨happ, ?_, ?_⟩
  · rw [hone]
  · rw [runLive, List.foldl_cons, hone]
    rfl

/-- Claim C3, witness: the amended statement at the concrete identifier-less
insert event. -/
theorem missing_id_event_skipped_uncaught_witness :
    ([("name", BVal.vStr "a")].lookup "_id" = none) ∧
    applyChange initLive.target c3Event = .error "TypeError" :=
  ⟨rfl, (missing_id_event_skipped_uncaught 5 initLive c3Event
      [("name", BVal.vStr "a")] [] (Or.inl rfl) rfl rfl).1⟩

/-- Claim C4, counterexample: with `saveThreshold = 2`, one applied event
and then end of processing (the script installs no shutdown hook at all),
no resume token has been saved — there is no final checkpoint on
shutdown after fewer than N applied events. -/
theorem no_final_checkpoint_on_shutdown :
    (runLive 2 initLive [c4Event]).applied = 1 ∧
    (runLive 2 initLive [c4Event]).savedTokens = [] :=
  ⟨rfl, rfl⟩

/-- Claim C4, amended: for every `saveThreshold = N ≥ 1` and every
sequence of delivered events, under serialized handler execution (each
event's awaited writes and save complete before the next event is
emitted) the number of resume-token saves equals the number of applied
events divided by N and the pending counter equals the remainder — a
checkpoint write occurs exactly after every N-th applied event and never
before. The code does not enforce serialization: `changeCount` is reset
only after the awaited save completes, so overlapping handlers can each
pass the threshold — with N = 2, three events emitted in a burst produce
two saves from three applied events. No shutdown-time final save exists. -/
theorem checkpoint_batching_exact_only_when_serialized :
    (∀ (N : Nat), 1 ≤ N → ∀ evs : List ChangeEvent,
      (execSched N (initExec evs) (serialSched evs)).savedTokens.length
        = (execSched N (initExec evs) (serialSched evs)).applied / N ∧
      (execSched N (initExec evs) (serialSched evs)).changeCount
        = (execSched N (initExec evs) (serialSched evs)).applied % N) ∧
    ((execSched 2 (initExec [c4Event, c4Event2, c4Event3]) c4OverlapSched).applied = 3 ∧
     (execSched 2 (initExec [c4Event, c4Event2, c4Event3])
        c4OverlapSched).savedTokens.length = 2) := by
  constructor
  · intro N hN evs
    have h := runLive_saves_div N hN evs
    rw [← serial_exec_eq_runLive N evs] at h
    exact h
  · exact ⟨rfl, rfl⟩

/-- Claim C4, witness: the serialized batching law at `N = 2` with one
concrete event. -/
theorem checkpoint_batching_exact_only_when_serialized_witness :
    1 ≤ 2 ∧
    ((execSched 2 (initExec [c4Event]) (serialSched [c4Event])).savedTokens.length
        = (execSched 2 (initExec [c4Event]) (serialSched [c4Event])).applied / 2 ∧
     (execSched 2 (initExec [c4Event]) (serialSched [c4Event])).changeCount
        = (execSched 2 (initExec [c4Event]) (serialSched [c4Event])).applied % 2) :=
  ⟨by decide, checkpoint_batching_exact_only_when_serialized.1 2 (by decide) [c4Event]⟩

/-- Claim C5, counterexample: the emitter never awaits the async `change`
listener, so with the three events of the claim's scenario emitted in a
burst, the event loop may resolve the delete's write first, then the
update's (which rejects with NOT_FOUND on the absent document), and the
insert's set last — leaving the target with a document for id 1. The
claimed strict apply order is not guaranteed by the program. -/
theorem delete_can_complete_before_insert_write :
    (execSched 100 (initExec [c5Insert, c5Update, c5Delete])
        [.deliver, .deliver, .deliver, .complete 2, .complete 1, .complete 0]).target "1"
      = some (.vDoc [("name", .vStr "a")]) := rfl

/-- Claim C5, amended: handler invocations are dispatched in feed order,
but the code does not serialize their awaited writes; when each event's
handler completes before the next event is emitted (the serialized
schedule), the pipeline behaves exactly as the sequential fold of the
handler over the feed — events are applied strictly in feed order — and
the in-order sequence insert(id=1), update(id=1), delete(id=1) then
leaves the target with no document for id 1. -/
theorem feed_order_holds_only_when_serialized :
    (∀ (N : Nat) (evs : List ChangeEvent),
        toLive (execSched N (initExec evs) (serialSched evs)) = runLive N initLive evs) ∧
    (∀ N : Nat,
        (execSched N (initExec [c5Insert, c5Update, c5Delete])
            (serialSched [c5Insert, c5Update, c5Delete])).target "1" = none) := by
  refine ⟨serial_exec_eq_runLive, fun N => ?_⟩
  have h := congrArg LiveState.target
    (serial_exec_eq_runLive N [c5Insert, c5Update, c5Delete])
  have h2 := runLive_triple_target_none N initLive
  rw [show (execSched N (initExec [c5Insert, c5Update, c5Delete])
        (serialSched [c5Insert, c5Update, c5Delete])).target
      = (runLive N initLive [c5Insert, c5Update, c5Delete]).target from h]
  exact h2

/-- Claim C6, counterexample: in the live-replication path the insert
handler stores the event's body without calling `convertIdToString`, so a
nested `_id` (inside the `ref` sub-document) reaches the target
unconverted — the stored body fails `idsStringified`. -/
theorem live_path_leaves_nested_id_unconverted :
    (match applyChange (fun _ => none) c6Event with
     | .ok st => (st "x").map idsStringified
     | .error _ => none) = some false := by
  have h : applyChange (fun _ => none) c6Event
      = .ok (fsSet (fun _ => none) "x" (.vDoc [("ref", .vDoc [("_id", .vObjId "y")])])) :=
    rfl
  rw [h]
  simp only [fsSet]
  simp [idsStringified, idsStringifiedFields, isVStr]

/-- Claim C6, amended: in the one-time migration path, translation
converts every field named `_id`, at any nesting depth, to its string
representation (`idsStringified` holds of every conversion result), the
outermost `_id` becomes the target key and is absent from the translated
body while nested `_id` fields are stringified in place and retained; the
live-replication path stringifies and removes only the outermost `_id`. -/
theorem migrate_translation_stringifies_all_ids :
    (∀ v v', convertIdToString v = some v' → idsStringified v' = true) ∧
    (∀ (tgt : TargetColl) (fields d' : List (String × BVal)) (s : String),
      convFields fields = some d' →
      d'.lookup "_id" = some (.vStr s) →
      migrateStep tgt (.vDoc fields)
        = .ok (fsSet tgt s (.vDoc (d'.filter (fun p => !(p.1 == "_id"))))) ∧
      (d'.filter (fun p => !(p.1 == "_id"))).lookup "_id" = none) := by
  refine ⟨conv_ids, ?_⟩
  intro tgt fields d' s hconv hid
  constructor
  · have h1 : convertIdToString (.vDoc fields) = some (.vDoc d') := by
      rw [convertIdToString, hconv]
    simp [migrateStep, h1, getField, hid, deleteField]
  · exact lookup_filter_key_none d' "_id"

/-- Claim C6, witness: the migrate-path translation at a document whose
`_id` is an ObjectId and which holds a nested `_id` in a sub-document. -/
theorem migrate_translation_stringifies_all_ids_witness :
    (convFields [("_id", BVal.vObjId "a"), ("sub", BVal.vDoc [("_id", BVal.vObjId "b")])]
      = some [("_id", BVal.vStr "a"), ("sub", BVal.vDoc [("_id", BVal.vStr "b")])]) ∧
    migrateStep (fun _ => none)
        (.vDoc [("_id", BVal.vObjId "a"), ("sub", BVal.vDoc [("_id", BVal.vObjId "b")])])
      = .ok (fsSet (fun _ => none) "a"
          (.vDoc ([("_id", BVal.vStr "a"),
            ("sub", BVal.vDoc [("_id", BVal.vStr "b")])].filter
              (fun p => !(p.1 == "_id"))))) := by
  have hconv :
      convFields [("_id", BVal.vObjId "a"), ("sub", BVal.vDoc [("_id", BVal.vObjId "b")])]
        = some [("_id", BVal.vStr "a"), ("sub", BVal.vDoc [("_id", BVal.vStr "b")])] := by
    simp only [convFields, convertIdToString, jsToString, jsTypeofIsObject]
    rfl
  exact ⟨hconv,
    (migrate_translation_stringifies_all_ids.2 (fun _ => none) _ _ "a" hconv rfl).1⟩

/-- Claim C7: for every mode argument other than `migrate` or `live`, the
process exits with status 1 before any pipeline — migration or live
replication for any mapping — has been started. -/
theorem invalid_mode_exits_before_pipelines (mode : String) (config : Config)
    (h1 : mode ≠ "migrate") (h2 : mode ≠ "live") :
    startProcess mode config = { started := [], exitCode := some 1 } := by
  simp [startProcess, h1, h2]

/-- Claim C7, witness: the mode `replicate` exits with status 1 and starts
nothing on a configuration with one mapping. -/
theorem invalid_mode_exits_before_pipelines_witness :
    ("replicate" ≠ "migrate" ∧ "replicate" ≠ "live") ∧
    startProcess "replicate" c7Config = { started := [], exitCode := some 1 } :=
  ⟨⟨by decide, by decide⟩,
    invalid_mode_exits_before_pipelines "replicate" c7Config (by decide) (by decide)⟩

/-- Claim C8: in a run whose mappings write to pairwise distinct target
collections, each mapping's final target collection equals the result of
its own migration alone — so one mapping's sync failure cannot affect any
other mapping — and a mapping whose migration fails has its error logged
against its source collection. -/
theorem mapping_failure_confined (src : SourceDb) (tgt : TargetDb) (ms : List Mapping)
    (m : Mapping) (hm : m ∈ ms) (hnd : (ms.map Mapping.targetCollection).Nodup) :
    (processDatabase src tgt ms).target m.targetCollection
      = (migrateCollection (src m.sourceCollection) (tgt m.targetCollection)).1 ∧
    ∀ e, (migrateCollection (src m.sourceCollection) (tgt m.targetCollection)).2 = some e →
      (m.sourceCollection, e) ∈ (processDatabase src tgt ms).logs :=
  foldl_mapping_independent src ms { target := tgt, logs := [] } m hm hnd

/-- Claim C8, witness: with mapping `a → ta` failing (document without an
identifier) and mapping `b → tb` succeeding in the same run, mapping `b`'s
target collection still equals its own complete migration result. -/
theorem mapping_failure_confined_witness :
    (Mapping.mk "b" "tb" ∈ [Mapping.mk "a" "ta", Mapping.mk "b" "tb"] ∧
      (([Mapping.mk "a" "ta", Mapping.mk "b" "tb"].map Mapping.targetCollection)).Nodup) ∧
    (processDatabase c8Source (fun _ => fun _ => none)
        [Mapping.mk "a" "ta", Mapping.mk "b" "tb"]).target "tb"
      = (migrateCollection (c8Source "b") (fun _ => none)).1 :=
  ⟨⟨by decide, by decide⟩,
    (mapping_failure_confined c8Source (fun _ => fun _ => none)
      [Mapping.mk "a" "ta", Mapping.mk "b" "tb"] (Mapping.mk "b" "tb")
      (by decide) (by decide)).1⟩

/-- Claim C9: loading the checkpoint of a mapping whose record has never
been written auto-creates the durable "none" placeholder (a record storing
a null resume token) and returns none; a non-absence load error — an
unreadable file or unparsable content — is propagated to the caller
unchanged, never converted into a placeholder. -/
theorem load_autocreates_placeholder_propagates_errors (fs : FileSys) (filePath : String) :
    (fs filePath = .missing →
      loadResumeToken fs filePath = (saveResumeToken fs filePath none, .ok none) ∧
      (saveResumeToken fs filePath none) filePath = .stored none) ∧
    (∀ e, fs filePath = .readErr e → loadResumeToken fs filePath = (fs, .error e)) ∧
    (fs filePath = .corrupt → loadResumeToken fs filePath = (fs, .error "SyntaxError")) := by
  refine ⟨fun h => ⟨?_, ?_⟩, fun e h => ?_, fun h => ?_⟩
  · simp [loadResumeToken, h]
  · simp [saveResumeToken]
  · simp [loadResumeToken, h]
  · simp [loadResumeToken, h]

/-- Claim C9, witness: loading from an empty file system creates the
placeholder and returns none. -/
theorem load_autocreates_placeholder_propagates_errors_witness :
    ((fun _ => FRead.missing : FileSys) "p" = .missing) ∧
    loadResumeToken (fun _ => FRead.missing) "p"
      = (saveResumeToken (fun _ => FRead.missing) "p" none, .ok none) :=
  ⟨rfl, ((load_autocreates_placeholder_propagates_errors (fun _ => FRead.missing) "p").1
      rfl).1⟩

/-- Claim C10: with no mode argument at all, the mode defaults to
`migrate`; the process behaves exactly as in migrate mode and does not
take the configuration-error exit. -/
theorem missing_mode_defaults_to_migrate :
    modeOf none = "migrate" ∧
    ∀ config : Config, startProcess (modeOf none) config = startProcess "migrate" config ∧
      (startProcess (modeOf none) config).exitCode = none := by
  refine ⟨rfl, fun config => ⟨rfl, ?_⟩⟩
  simp [startProcess, modeOf]
